import Mathlib

set_option autoImplicit false

/-!
Verification development for the CommandHotline birthday bot.

The definitions below are a shallow embedding of the code in
`src/bot/cogs/birthdays.py`, `src/bot/lib/database.py` and
`src/bot/lib/util.py`:

* calendar dates are a `Date` structure of naturals;
* timestamps (`datetime.datetime` instants) are integers counting
  microseconds, so `relativedelta(days=90)` is an exact integer offset;
* the peewee record `Birthday` is the structure `BirthdayRec`;
* the regex table `Birthday.PATTERNS_DATE` and CPython's `strptime`
  are embedded as explicit alternation matchers over `List Char`
  (a Python regex made of literals, character classes and optional
  character classes is expanded into its ordered list of
  backtracking alternatives, each of which matches deterministically);
* `datetime.date.today()` / `datetime.datetime.now()` become explicit
  `today`/`now` parameters.
-/

/-- A calendar date, as `datetime.date`: year, month, day. -/
structure Date where
  year : Nat
  month : Nat
  day : Nat
deriving DecidableEq, Repr

/-- Gregorian leap-year rule used by `datetime`. -/
def isLeapYear (y : Nat) : Bool :=
  (y % 4 == 0 && y % 100 != 0) || y % 400 == 0

/-- Number of days in a month of a given year (`calendar`/`datetime` rules);
months outside 1..12 get 0 so that any day is rejected for them. -/
def daysInMonth (y m : Nat) : Nat :=
  match m with
  | 1 => 31
  | 2 => if isLeapYear y then 29 else 28
  | 3 => 31
  | 4 => 30
  | 5 => 31
  | 6 => 30
  | 7 => 31
  | 8 => 31
  | 9 => 30
  | 10 => 31
  | 11 => 30
  | 12 => 31
  | _ => 0

/-- Strict comparison of `datetime.date` values (lexicographic). -/
def dateLtB (a b : Date) : Bool :=
  a.year < b.year ||
    (a.year == b.year &&
      (a.month < b.month || (a.month == b.month && a.day < b.day)))

/-- Decimal digit character, as produced by Python `str`/`strftime`. -/
def digitChar (k : Nat) : Char :=
  ['0', '1', '2', '3', '4', '5', '6', '7', '8', '9'].getD k '0'

/-- Numeric value of a decimal digit character (`int` on one char). -/
def charVal (c : Char) : Nat := c.toNat - 48

/-- Fuel-driven decimal rendering helper (digits accumulated from the right). -/
def natLitAux : Nat → Nat → List Char → List Char
  | 0, _, acc => acc
  | fuel + 1, n, acc =>
      if n = 0 then acc else natLitAux fuel (n / 10) (digitChar (n % 10) :: acc)

/-- Decimal rendering of a natural number, as Python `str(n)` /
`strftime("%Y")` on glibc (no zero padding). -/
def natLit (n : Nat) : List Char :=
  if n = 0 then ['0'] else natLitAux n n []

/-- Decimal rendering of an integer, as Python `str(i)`. -/
def intLit (i : Int) : List Char :=
  if i < 0 then '-' :: natLit (-i).toNat else natLit i.toNat

/-- Python `f"{n:02}"` / `strftime("%d")`: zero-padded to two characters. -/
def pad2 (n : Nat) : List Char :=
  if n < 10 then ['0', digitChar n] else natLit n

/-- The persisted `Birthday` peewee model, including the
`date_created`/`date_updated` columns inherited from `BaseModel`
(`src/bot/lib/database.py`).  `last_notified` is an optional timestamp. -/
structure BirthdayRec where
  user_id : Nat
  guild_id : Nat
  year : Option Nat
  month : Nat
  day : Nat
  last_notified : Option Int
  enabled : Bool
  date_created : Int
  date_updated : Int
deriving DecidableEq, Repr

/-- Python-level errors that can escape the embedded code paths. -/
inductive PyError where
  | birthdayParseError (msg : String)
  | valueError (msg : String)
  | attributeError (msg : String)
deriving DecidableEq, Repr

/-- Whether an error is the cog's own `BirthdayParseError`
(the only error class the `birthday` command handler catches). -/
def isBirthdayParseError : PyError → Bool
  | .birthdayParseError _ => true
  | _ => false

/-- `Manager.update_fields(obj, enabled=v)`: sets the given field and,
through the `BaseModel.update` override reached by
`peewee_async.Manager.update`, also refreshes `date_updated`. -/
def update_fields_enabled (b : BirthdayRec) (v : Bool) (now : Int) : BirthdayRec :=
  { b with enabled := v, date_updated := now }

/-- `Manager.update_fields(obj, year=y, month=m, day=d)` as invoked by the
`birthday` date-set command: overwrites the three date fields and refreshes
`date_updated`; no other column is written. -/
def update_fields_date (b : BirthdayRec) (y : Option Nat) (m d : Nat) (now : Int) :
    BirthdayRec :=
  { b with year := y, month := m, day := d, date_updated := now }

/-- `Manager.update_fields(obj, last_notified=now)` as invoked by
`try_notify` after a successful send. -/
def update_fields_last_notified (b : BirthdayRec) (now : Int) : BirthdayRec :=
  { b with last_notified := some now, date_updated := now }

/-- `Manager.safe_get(Birthday, user_id=uid, guild_id=gid)` over a store
modelled as a list of records. -/
def safe_get (store : List BirthdayRec) (uid gid : Nat) : Option BirthdayRec :=
  store.find? (fun b => b.user_id == uid && b.guild_id == gid)

/-- A Python expression that may be an un-awaited coroutine: the listeners in
`birthdays.py` assign `manager.safe_get(...)` without `await`, so the bound
name holds a coroutine object, not a record. -/
inductive PyAwaitable (α : Type) where
  | coro (pending : α)
  | value (x : α)

/-- Python truthiness of such a value: a coroutine object is always truthy;
an awaited `Optional[Birthday]` is truthy exactly when a record was found. -/
def pyTruthyAwaitable : PyAwaitable (Option BirthdayRec) → Bool
  | .coro _ => true
  | .value none => false
  | .value (some _) => true

/-- `Birthdays.on_member_join`, as written: `safe_get` is not awaited, so the
`if birthday:` test sees a (truthy) coroutine object and
`update_fields(birthday, enabled=True)` then does `setattr` on a coroutine,
which raises `AttributeError`.  No record is ever written. -/
def on_member_join (store : List BirthdayRec) (uid gid : Nat) :
    Except PyError (List BirthdayRec) :=
  let birthday := PyAwaitable.coro (safe_get store uid gid)
  if pyTruthyAwaitable birthday then
    .error (.attributeError "'coroutine' object has no attribute 'enabled'")
  else
    .ok store

/-- `Birthdays.on_member_leave`, as written: same missing `await` as
`on_member_join`, with `enabled=False`. -/
def on_member_leave (store : List BirthdayRec) (uid gid : Nat) :
    Except PyError (List BirthdayRec) :=
  let birthday := PyAwaitable.coro (safe_get store uid gid)
  if pyTruthyAwaitable birthday then
    .error (.attributeError "'coroutine' object has no attribute 'enabled'")
  else
    .ok store

/-- `Birthdays.RETENTION_DAYS`. -/
def RETENTION_DAYS : Nat := 90

/-- Microseconds per day; timestamps are microsecond counts, so
`relativedelta(days=90)` on a `datetime` is this exact offset. -/
def usecPerDay : Int := 86400000000

/-- `date_expired = now - relativedelta(days=RETENTION_DAYS)`. -/
def retentionCutoff (now : Int) : Int := now - RETENTION_DAYS * usecPerDay

/-- The `where` clause of `birthday_cron_retention`:
`(Birthday.enabled == False) & (Birthday.date_updated < date_expired)`. -/
def retentionEligible (b : BirthdayRec) (now : Int) : Bool :=
  (!b.enabled) && decide (b.date_updated < retentionCutoff now)

/-- The records the retention sweep run at `now` deletes. -/
def retentionDeleted (store : List BirthdayRec) (now : Int) : List BirthdayRec :=
  store.filter (fun b => retentionEligible b now)

/-- The `where` clause of `birthday_cron_notify`:
`enabled & (day == today.day) & (month == today.month) &
((last_notified < today_dt) | last_notified.is_null())`, where `today_dt`
is the `midnightT` instant (start of `today`).  Under SQL three-valued
logic `NULL < x` is not true, so the disjunction reduces to:
null, or strictly before midnight. -/
def notifyEligible (b : BirthdayRec) (today : Date) (midnightT : Int) : Bool :=
  b.enabled && (b.day == today.day) && (b.month == today.month) &&
    (match b.last_notified with
     | none => true
     | some t => decide (t < midnightT))

/-- The records one notify sweep run selects. -/
def sweepSelect (store : List BirthdayRec) (today : Date) (midnightT : Int) :
    List BirthdayRec :=
  store.filter (fun b => notifyEligible b today midnightT)

/-- Effect of one notify sweep run on the store: every selected record whose
notification attempt succeeds (`sendOk`) gets
`last_notified = now()` persisted; failed or unselected records are
untouched.  Attempts run concurrently but each touches only its own
record, so the store effect is this pointwise map. -/
def runNotifySweep (store : List BirthdayRec) (today : Date) (midnightT now : Int)
    (sendOk : BirthdayRec → Bool) : List BirthdayRec :=
  store.map (fun b =>
    if notifyEligible b today midnightT && sendOk b then
      update_fields_last_notified b now
    else b)

/-- `ORDINAL_WORDS` from `src/bot/lib/util.py`. -/
def ORDINAL_WORDS : List String :=
  ["zeroeth", "first", "second", "third", "fourth",
   "fifth", "sixth", "seventh", "eighth", "nineth"]

/-- `util.ordinal`: the numeral followed by the last two characters of the
word selected by the last decimal digit (`ORDINAL_WORDS[number % 10][-2:]`).
Python `%` on a positive modulus is `Int.emod`. -/
def ordinal (number : Int) : String :=
  String.mk (intLit number) ++ (ORDINAL_WORDS.getD (number % 10).toNat "").takeRight 2

/-- `relativedelta(today, birthday_date).years` for `today ≥ birthday_date`:
civil (calendar) year difference with borrow when the month/day of `today`
precedes the month/day of the birthday. -/
def relativedeltaYears (today bd : Date) : Int :=
  (today.year : Int) - (bd.year : Int) -
    (if today.month < bd.month || (today.month == bd.month && today.day < bd.day)
     then 1 else 0)

/-- The `day` string built by `Birthdays.try_notify`: with a (truthy) year,
the ordinal of the civil age followed by a space; otherwise a single
space.  `if birthday.year:` is Python truthiness, so year 0 or `None`
both take the else branch. -/
def notifyDayString (b : BirthdayRec) (today : Date) : String :=
  if b.year.getD 0 ≠ 0 then
    ordinal (relativedeltaYears today ⟨b.year.getD 0, b.month, b.day⟩) ++ " "
  else " "

/-- A regex character class. -/
abbrev CharClass := Char → Bool

/-- The regex class `\d`. -/
def isDigitCh (c : Char) : Bool := '0' ≤ c && c ≤ '9'

/-- ASCII whitespace stripped by Python `str.strip`. -/
def isSpaceCh (c : Char) : Bool :=
  c = ' ' || c = '\t' || c = '\n' || c = '\r' || c = Char.ofNat 11 || c = Char.ofNat 12

/-- A regex class listing its characters, such as `[01]`. -/
def isIn (l : List Char) (c : Char) : Bool := l.contains c

/-- One deterministic piece of an expanded regex alternative: a literal
character or a capturing run of character classes. -/
inductive Chunk where
  | lit (c : Char)
  | grp (cs : List CharClass)

/-- Match a run of character classes against the input, returning the
captured characters and the remaining input. -/
def matchClasses : List CharClass → List Char → Option (List Char × List Char)
  | [], s => some ([], s)
  | _ :: _, [] => none
  | p :: ps, x :: s =>
      if p x then (matchClasses ps s).map (fun q => (x :: q.1, q.2)) else none

/-- Match one expanded alternative: returns (captures, consumed, rest).
Each alternative is deterministic, so no backtracking happens here. -/
def matchChunks : List Chunk → List Char → Option (List (List Char) × List Char × List Char)
  | [], s => some ([], [], s)
  | .lit _ :: _, [] => none
  | .lit c :: ks, x :: s =>
      if x = c then (matchChunks ks s).map (fun q => (q.1, x :: q.2.1, q.2.2)) else none
  | .grp cs :: ks, s =>
      match matchClasses cs s with
      | none => none
      | some (cap, s') =>
          (matchChunks ks s').map (fun q => (cap :: q.1, cap ++ q.2.1, q.2.2))

/-- First alternative that yields a result, in order. -/
def firstSome {α β : Type} (f : α → Option β) : List α → Option β
  | [] => none
  | a :: as =>
      match f a with
      | some b => some b
      | none => firstSome f as

/-- A regex element as it appears in the source patterns and in CPython's
`strptime` format regexes: a literal, or a group of ordered alternatives,
each a run of character classes (`[01]?\d` is the group
`[[01-class, digit], [digit]]`; `%d` is the group for
`3[01]|[12]\d|0[1-9]|[1-9]`). -/
inductive Dir where
  | lit (c : Char)
  | grp (alts : List (List CharClass))

/-- Expand a regex into its ordered list of deterministic alternatives.
The order is leftmost-choice-major, which is exactly the order a
backtracking regex engine explores: later choice points are unwound
first. -/
def expandDirs : List Dir → List (List Chunk)
  | [] => [[]]
  | .lit c :: ds => (expandDirs ds).map (fun a => Chunk.lit c :: a)
  | .grp as :: ds =>
      (as.map (fun cs => (expandDirs ds).map (fun a => Chunk.grp cs :: a))).flatten

/-- `re.match` of a pattern: anchored at the start, trailing input
allowed; the first alternative (in backtracking order) that matches a
prefix wins. -/
def reMatch (ds : List Dir) (s : List Char) :
    Option (List (List Char) × List Char × List Char) :=
  firstSome (fun a => matchChunks a s) (expandDirs ds)

/-- CPython `_strptime`: the compiled format regex is matched against the
data (a prefix match), then the match must have consumed the whole
string, else `ValueError("unconverted data remains")`. -/
def strptimeRun (ds : List Dir) (s : List Char) : Except PyError (List (List Char)) :=
  match reMatch ds s with
  | none => .error (.valueError "time data does not match format")
  | some (caps, _, rest) =>
      if rest.isEmpty then .ok caps
      else .error (.valueError "unconverted data remains")

/-- The class `[01]`. -/
def in01 : CharClass := isIn ['0', '1']

/-- The class `[0123]`. -/
def in0123 : CharClass := isIn ['0', '1', '2', '3']

/-- The class `[1-9]`. -/
def nz19 : CharClass := isIn ['1', '2', '3', '4', '5', '6', '7', '8', '9']

/-- The regex `\d` as a one-alternative group. -/
def dirDigit : Dir := .grp [[isDigitCh]]

/-- The regex `C?\d` (optional class then a digit): greedy, so the
two-character alternative precedes the one-character one. -/
def dirOpt2 (first : CharClass) : Dir := .grp [[first, isDigitCh], [isDigitCh]]

/-- CPython strptime directive `%d`: `3[01]|[12]\d|0[1-9]|[1-9]`. -/
def dirD : Dir :=
  .grp [[isIn ['3'], in01], [isIn ['1', '2'], isDigitCh], [isIn ['0'], nz19], [nz19]]

/-- CPython strptime directive `%m`: `1[0-2]|0[1-9]|[1-9]`. -/
def dirM : Dir :=
  .grp [[isIn ['1'], isIn ['0', '1', '2']], [isIn ['0'], nz19], [nz19]]

/-- CPython strptime directive `%y`: two digits. -/
def dirY2 : Dir := .grp [[isDigitCh, isDigitCh]]

/-- CPython strptime directive `%Y`: four digits. -/
def dirY4 : Dir := .grp [[isDigitCh, isDigitCh, isDigitCh, isDigitCh]]

/-- The ten source layouts of `Birthday.PATTERNS_DATE`, in order. -/
inductive Fmt where
  | isoY4
  | isoY2
  | monthDay
  | dotY4
  | dotY2
  | dotNoYear
  | dotTrailing
  | slashY4
  | slashY2
  | slashNoYear
deriving DecidableEq, Repr

/-- The regex `\d\d\d\d-[01]?\d-[0123]?\d`. -/
def patIsoY4 : List Dir :=
  [dirDigit, dirDigit, dirDigit, dirDigit, .lit '-', dirOpt2 in01, .lit '-',
   dirOpt2 in0123]

/-- The regex `\d\d-[01]?\d-[0123]?\d`. -/
def patIsoY2 : List Dir :=
  [dirDigit, dirDigit, .lit '-', dirOpt2 in01, .lit '-', dirOpt2 in0123]

/-- The regex `[01]?\d-[0123]?\d`. -/
def patMonthDay : List Dir := [dirOpt2 in01, .lit '-', dirOpt2 in0123]

/-- The regex `[0123]?\d\.[01]?\d\.\d\d\d\d`. -/
def patDotY4 : List Dir :=
  [dirOpt2 in0123, .lit '.', dirOpt2 in01, .lit '.', dirDigit, dirDigit, dirDigit,
   dirDigit]

/-- The regex `[0123]?\d\.[01]?\d\.\d\d`. -/
def patDotY2 : List Dir :=
  [dirOpt2 in0123, .lit '.', dirOpt2 in01, .lit '.', dirDigit, dirDigit]

/-- The regex `[0123]?\d\.[01]?\d`. -/
def patDotNoYear : List Dir := [dirOpt2 in0123, .lit '.', dirOpt2 in01]

/-- The regex `[0123]?\d\.[01]?\d\.` (trailing dot). -/
def patDotTrailing : List Dir := [dirOpt2 in0123, .lit '.', dirOpt2 in01, .lit '.']

/-- The regex `[01]?\d/[0123]?\d/\d\d\d\d`. -/
def patSlashY4 : List Dir :=
  [dirOpt2 in01, .lit '/', dirOpt2 in0123, .lit '/', dirDigit, dirDigit, dirDigit,
   dirDigit]

/-- The regex `[01]?\d/[0123]?\d/\d\d`. -/
def patSlashY2 : List Dir :=
  [dirOpt2 in01, .lit '/', dirOpt2 in0123, .lit '/', dirDigit, dirDigit]

/-- The regex `[01]?\d/[0123]?\d`. -/
def patSlashNoYear : List Dir := [dirOpt2 in01, .lit '/', dirOpt2 in0123]

/-- `Birthday.PATTERNS_DATE`: the ordered (pattern, format) table. -/
def PATTERNS_DATE : List (List Dir × Fmt) :=
  [(patIsoY4, .isoY4),
   (patIsoY2, .isoY2),
   (patMonthDay, .monthDay),
   (patDotY4, .dotY4),
   (patDotY2, .dotY2),
   (patDotNoYear, .dotNoYear),
   (patDotTrailing, .dotTrailing),
   (patSlashY4, .slashY4),
   (patSlashY2, .slashY2),
   (patSlashNoYear, .slashNoYear)]

/-- Whether the layout's strftime string contains `%y` or `%Y`. -/
def fmtHasYear : Fmt → Bool
  | .monthDay => false
  | .dotNoYear => false
  | .dotTrailing => false
  | .slashNoYear => false
  | _ => true

/-- The strptime directives for each layout, as actually passed to
`strptime` by `parse_date`: for the year-less layouts the code first
appends `" %Y"` to both the text and the format, so the appended
directives are included here. -/
def fmtDirs : Fmt → List Dir
  | .isoY4 => [dirY4, .lit '-', dirM, .lit '-', dirD]
  | .isoY2 => [dirY2, .lit '-', dirM, .lit '-', dirD]
  | .monthDay => [dirM, .lit '-', dirD, .lit ' ', dirY4]
  | .dotY4 => [dirD, .lit '.', dirM, .lit '.', dirY4]
  | .dotY2 => [dirD, .lit '.', dirM, .lit '.', dirY2]
  | .dotNoYear => [dirD, .lit '.', dirM, .lit ' ', dirY4]
  | .dotTrailing => [dirD, .lit '.', dirM, .lit '.', .lit ' ', dirY4]
  | .slashY4 => [dirM, .lit '/', dirD, .lit '/', dirY4]
  | .slashY2 => [dirM, .lit '/', dirD, .lit '/', dirY2]
  | .slashNoYear => [dirM, .lit '/', dirD, .lit ' ', dirY4]

/-- Numeric value of a captured digit run (`int` conversion inside
strptime). -/
def capVal (cap : List Char) : Nat := cap.foldl (fun a c => 10 * a + charVal c) 0

/-- CPython strptime handling of `%y`: 0–68 maps to 2000+, 69–99 to 1900+. -/
def y2map (v : Nat) : Nat := if v ≤ 68 then 2000 + v else 1900 + v

/-- Assemble (year, month, day) from the captures, in each layout's
directive order, applying the `%y` century rule where the layout uses it. -/
def capsToYMD : Fmt → List (List Char) → Option (Nat × Nat × Nat)
  | .isoY4, [y, m, d] => some (capVal y, capVal m, capVal d)
  | .isoY2, [y, m, d] => some (y2map (capVal y), capVal m, capVal d)
  | .monthDay, [m, d, y] => some (capVal y, capVal m, capVal d)
  | .dotY4, [d, m, y] => some (capVal y, capVal m, capVal d)
  | .dotY2, [d, m, y] => some (y2map (capVal y), capVal m, capVal d)
  | .dotNoYear, [d, m, y] => some (capVal y, capVal m, capVal d)
  | .dotTrailing, [d, m, y] => some (capVal y, capVal m, capVal d)
  | .slashY4, [m, d, y] => some (capVal y, capVal m, capVal d)
  | .slashY2, [m, d, y] => some (y2map (capVal y), capVal m, capVal d)
  | .slashNoYear, [m, d, y] => some (capVal y, capVal m, capVal d)
  | _, _ => none

/-- `datetime.date(y, m, d)`: validates ranges, raising `ValueError` on an
impossible calendar date (e.g. day out of range for the month). -/
def mkDate (y m d : Nat) : Except PyError Date :=
  if y < 1 || y > 9999 then .error (.valueError "year is out of range")
  else if m < 1 || m > 12 then .error (.valueError "month must be in 1..12")
  else if d < 1 || d > daysInMonth y m then
    .error (.valueError "day is out of range for month")
  else .ok ⟨y, m, d⟩

/-- `datetime.datetime.strptime(s, fmt).date()` for one of the source
layouts (with the `" %Y"` suffix already accounted for in `fmtDirs`). -/
def strptimeDate (f : Fmt) (s : List Char) : Except PyError Date :=
  match strptimeRun (fmtDirs f) s with
  | .error e => .error e
  | .ok caps =>
      match capsToYMD f caps with
      | none => .error (.valueError "time data does not match format")
      | some (y, m, d) => mkDate y m d

/-- Python `str.strip` (ASCII whitespace from both ends). -/
def stripChars (s : List Char) : List Char :=
  ((s.dropWhile isSpaceCh).reverse.dropWhile isSpaceCh).reverse

/-- The pattern loop of `Birthday.parse_date`: the first pattern whose
`re.match` succeeds wins; the matched text is the `date` group, which
spans the whole pattern (trailing unmatched input is ignored). -/
def firstPatternMatch (s : List Char) : Option (List Char × Fmt) :=
  firstSome (fun pf => (reMatch pf.1 s).map (fun q => (q.2.1, pf.2))) PATTERNS_DATE

/-- The tail of `Birthday.parse_date` once a pattern has matched: for a
year-less layout, append the current year (`strftime(" %Y")` of now) for
range validation only and return `year = None`; for a year-bearing
layout, parse, then reject dates strictly after today with the
future-date `BirthdayParseError`.  Errors raised by `strptime` or
`datetime.date` are plain `ValueError`s and propagate unwrapped. -/
def parseWithFmt (matched : List Char) (f : Fmt) (today : Date) :
    Except PyError (Option Nat × Nat × Nat) :=
  if fmtHasYear f then
    match strptimeDate f matched with
    | .error e => .error e
    | .ok dt =>
        if dateLtB today dt then
          .error (.birthdayParseError "You cannot be born in the future.")
        else .ok (some dt.year, dt.month, dt.day)
  else
    match strptimeDate f (matched ++ ' ' :: natLit today.year) with
    | .error e => .error e
    | .ok dt => .ok (none, dt.month, dt.day)

/-- `Birthday.parse_date(text)`, with `datetime.date.today()` /
`datetime.datetime.now()` passed in as `today`. -/
def parse_date (text : String) (today : Date) :
    Except PyError (Option Nat × Nat × Nat) :=
  match firstPatternMatch (stripChars text.data) with
  | none =>
      .error (.birthdayParseError "The birthday you've entered cannot be parsed. :pensive:")
  | some (matched, f) => parseWithFmt matched f today

/-- `Birthday.__str__`: with a (truthy) year, `strftime("%d.%m.%Y")`;
otherwise `f"{day:02}.{month:02}."` with the trailing dot. -/
def birthdayStr (b : BirthdayRec) : String :=
  if b.year.getD 0 ≠ 0 then
    String.mk (pad2 b.day ++ '.' :: pad2 b.month ++ '.' :: natLit (b.year.getD 0))
  else
    String.mk (pad2 b.day ++ '.' :: pad2 b.month ++ ['.'])

/-- Concrete record used as the C1 counterexample input: an enabled record
with a recorded `last_notified`. -/
def c1rec : BirthdayRec :=
  { user_id := 1, guild_id := 1, year := some 1980, month := 3, day := 4,
    last_notified := some 5, enabled := true, date_created := 0, date_updated := 0 }

/-- C1 counterexample: re-setting the birthday of a record whose
`last_notified` is `some 5` via the date-set update leaves
`last_notified = some 5`; it is not cleared to absent, contrary to the
claim. -/
theorem C1_counterexample :
    (update_fields_date c1rec (some 1990) 2 14 999).last_notified = some 5 ∧
    some (5 : Int) ≠ (none : Option Int) := by
  constructor
  · rfl
  · simp

/-- C1 amended: re-setting the birthday via the date-set command overwrites
exactly the three date fields (and refreshes `date_updated` through the
`BaseModel.update` override); `last_notified` and every other column are
left unchanged. -/
theorem C1_amended (b : BirthdayRec) (y : Option Nat) (m d : Nat) (now : Int) :
    (update_fields_date b y m d now).year = y ∧
    (update_fields_date b y m d now).month = m ∧
    (update_fields_date b y m d now).day = d ∧
    (update_fields_date b y m d now).date_updated = now ∧
    (update_fields_date b y m d now).last_notified = b.last_notified ∧
    (update_fields_date b y m d now).enabled = b.enabled ∧
    (update_fields_date b y m d now).user_id = b.user_id ∧
    (update_fields_date b y m d now).guild_id = b.guild_id := by
  exact ⟨rfl, rfl, rfl, rfl, rfl, rfl, rfl, rfl⟩

/-- C5: a retention sweep run at `now` deletes a record exactly when it is
disabled and its `date_updated` is strictly before `now - 90` days; a
record exactly at the cutoff is retained, and one microsecond older is
deleted. -/
theorem C5_retention_boundary (store : List BirthdayRec) (now : Int) (b : BirthdayRec) :
    (b ∈ retentionDeleted store now ↔
      b ∈ store ∧ b.enabled = false ∧ b.date_updated < now - 90 * usecPerDay) ∧
    retentionEligible
      { b with enabled := false, date_updated := now - 90 * usecPerDay } now = false ∧
    retentionEligible
      { b with enabled := false, date_updated := now - 90 * usecPerDay - 1 } now = true := by
  refine ⟨?_, ?_, ?_⟩
  · simp [retentionDeleted, List.mem_filter, retentionEligible, retentionCutoff,
      RETENTION_DAYS, and_assoc]
  · simp [retentionEligible, retentionCutoff, RETENTION_DAYS]
  · simp [retentionEligible, retentionCutoff, RETENTION_DAYS]

/-- C6: as written, both membership listeners always raise
`AttributeError` — `manager.safe_get` is not awaited, so the truthiness
check passes on a coroutine object and `update_fields` is called on it;
no record is ever toggled and no timestamp is written.  (The
`update_fields(enabled=...)` call itself, had it been reached with a real
record, would refresh `date_updated` and leave `last_notified` alone, as
the third conjunct shows.) -/
theorem C6_listeners_raise (store : List BirthdayRec) (uid gid : Nat) :
    on_member_join store uid gid =
      .error (.attributeError "'coroutine' object has no attribute 'enabled'") ∧
    on_member_leave store uid gid =
      .error (.attributeError "'coroutine' object has no attribute 'enabled'") ∧
    ∀ (b : BirthdayRec) (v : Bool) (now : Int),
      (update_fields_enabled b v now).last_notified = b.last_notified ∧
      (update_fields_enabled b v now).date_updated = now ∧
      (update_fields_enabled b v now).enabled = v := by
  exact ⟨rfl, rfl, fun b v now => ⟨rfl, rfl, rfl⟩⟩

/-- C2: once a sweep run has persisted `last_notified = now` with `now` at
or after the day's midnight, the record fails the eligibility filter, and
a second sweep run on the same day selects exactly the eligible records
whose first attempt failed — so a successfully notified record is
selected zero times and at most one notification is sent per record per
calendar day. -/
theorem C2_no_duplicate_sends (today : Date) (midnightT now : Int)
    (sendOk : BirthdayRec → Bool) (store : List BirthdayRec) (b : BirthdayRec)
    (h : midnightT ≤ now) :
    notifyEligible (update_fields_last_notified b now) today midnightT = false ∧
    sweepSelect (runNotifySweep store today midnightT now sendOk) today midnightT =
      store.filter (fun r => notifyEligible r today midnightT && !sendOk r) := by
  have key : ∀ r : BirthdayRec,
      notifyEligible (update_fields_last_notified r now) today midnightT = false := by
    intro r
    simp only [notifyEligible, update_fields_last_notified]
    have : decide (now < midnightT) = false := by simp; omega
    rw [this]
    simp
  refine ⟨key b, ?_⟩
  induction store with
  | nil => rfl
  | cons r rs ih =>
      simp only [runNotifySweep, List.map_cons, sweepSelect, List.filter_cons] at ih ⊢
      cases hE : notifyEligible r today midnightT <;> cases hS : sendOk r <;>
        simp only [Bool.and_eq_true] at ih <;> simp [hE, hS, key r, ih]

/-- Concrete record for the C2 witness: enabled, birthday on Jan 1,
never notified. -/
def c2rec : BirthdayRec :=
  { user_id := 1, guild_id := 1, year := none, month := 1, day := 1,
    last_notified := none, enabled := true, date_created := 0, date_updated := 0 }

/-- C2 witness: instantiating the idempotence theorem at a concrete day,
midnight instant and send time. -/
theorem C2_no_duplicate_sends_witness :
    notifyEligible (update_fields_last_notified c2rec 150) ⟨2026, 1, 1⟩ 100 = false := by
  exact (C2_no_duplicate_sends ⟨2026, 1, 1⟩ 100 150 (fun _ => true) [] c2rec
    (by norm_num)).1

/-- C8: for every non-negative age `n`, `ordinal n` is the numeral followed
by the last two characters of `ORDINAL_WORDS[n % 10]` — "th" for 0 and
4–9, "st"/"nd"/"rd" for 1/2/3 — with no special-casing of 11/12/13 (so
`ordinal 11 = "11st"`); in particular `ordinal 34 = "34th"` and the `day`
string `try_notify` composes for a year-1990 record at a civil age of 34
is `"34th "`. -/
theorem C8_ordinal_suffix :
    (∀ n : Nat, ordinal (n : Int) =
      String.mk (natLit n) ++
        (if n % 10 = 1 then "st" else if n % 10 = 2 then "nd"
         else if n % 10 = 3 then "rd" else "th")) ∧
    ordinal 34 = "34th" ∧ ordinal 11 = "11st" ∧ ordinal 12 = "12nd" ∧
    ordinal 13 = "13rd" ∧
    relativedeltaYears ⟨2024, 6, 1⟩ ⟨1990, 5, 1⟩ = 34 ∧
    notifyDayString ⟨1, 1, some 1990, 5, 1, none, true, 0, 0⟩ ⟨2024, 6, 1⟩ = "34th " := by
  refine ⟨?_, by decide, by decide, by decide, by decide, by decide, by decide⟩
  intro n
  have h1 : ¬ ((n : Int) < 0) := by omega
  have h2 : ((n : Int)).toNat = n := by omega
  have h3 : ((n : Int) % 10).toNat = n % 10 := by omega
  have h4 : n % 10 < 10 := Nat.mod_lt _ (by norm_num)
  simp only [ordinal, intLit, if_neg h1, h2, h3]
  congr 1
  generalize hg : n % 10 = k
  rw [hg] at h4
  interval_cases k <;> rfl

/-- C9: `parse_date("2000-02-30")` matches the first (ISO) pattern, but
`strptime` then raises a plain `ValueError` ("day is out of range") which
is not a `BirthdayParseError` — the error escapes the parser's declared
error class (and the `except BirthdayParseError` handler of the
`birthday` command). -/
theorem C9_invalid_date_escapes (today : Date) :
    parse_date "2000-02-30" today =
      .error (.valueError "day is out of range for month") ∧
    isBirthdayParseError (.valueError "day is out of range for month") = false := by
  exact ⟨rfl, rfl⟩

/-- `Option.map` preserves `isSome`. -/
theorem isSome_opMap {α β : Type} (f : α → β) (o : Option α) :
    (Option.map f o).isSome = o.isSome := by
  cases o <;> rfl

/-- A match of a longer alternative gives a match of any prefix of it. -/
theorem matchChunks_append_isSome (a b : List Chunk) (s : List Char)
    (h : (matchChunks (a ++ b) s).isSome = true) :
    (matchChunks a s).isSome = true := by
  induction a generalizing s with
  | nil => simp [matchChunks]
  | cons k ks ih =>
      cases k with
      | lit c =>
          cases s with
          | nil => simp [matchChunks] at h
          | cons x s' =>
              simp only [List.cons_append, matchChunks] at h ⊢
              by_cases hx : x = c
              · rw [if_pos hx] at h ⊢
                rw [isSome_opMap] at h ⊢
                exact ih s' h
              · rw [if_neg hx] at h
                simp at h
      | grp cs =>
          simp only [List.cons_append, matchChunks] at h ⊢
          cases hm : matchClasses cs s with
          | none => rw [hm] at h; simp at h
          | some q =>
              obtain ⟨cap, s2⟩ := q
              rw [hm] at h
              simp only [isSome_opMap] at h ⊢
              exact ih s2 (by simpa using h)

/-- If every alternative extended by a trailing literal matches, so does
some original alternative: `firstSome` over the extended list succeeding
implies `firstSome` over the originals succeeding. -/
theorem firstSome_matchChunks_append (alts : List (List Chunk)) (c : Char)
    (s : List Char)
    (h : firstSome (fun a => matchChunks a s)
      (alts.map (fun a => a ++ [Chunk.lit c])) ≠ none) :
    firstSome (fun a => matchChunks a s) alts ≠ none := by
  induction alts with
  | nil => simp [firstSome] at h
  | cons a rest ih =>
      simp only [List.map_cons, firstSome] at h ⊢
      cases hm : matchChunks (a ++ [Chunk.lit c]) s with
      | some q =>
          have hs : (matchChunks a s).isSome = true :=
            matchChunks_append_isSome a [Chunk.lit c] s (by rw [hm]; rfl)
          cases hq : matchChunks a s with
          | none => rw [hq] at hs; simp at hs
          | some r => simp [hq]
      | none =>
          rw [hm] at h
          cases hq : matchChunks a s with
          | some r => simp [hq]
          | none => exact ih h

/-- The trailing-dot pattern is the no-year dotted pattern followed by a
literal dot, alternative by alternative. -/
theorem expandDotTrailing :
    expandDirs patDotTrailing =
      (expandDirs patDotNoYear).map (fun a => a ++ [Chunk.lit '.']) := by
  rfl

/-- If the `%d.%m` pattern fails on an input, so does the `%d.%m.` pattern. -/
theorem dotTrailing_from_dotNoYear (s : List Char)
    (h5 : reMatch patDotNoYear s = none) : reMatch patDotTrailing s = none := by
  unfold reMatch at h5 ⊢
  rw [expandDotTrailing]
  by_contra hne
  exact (firstSome_matchChunks_append _ '.' s hne) h5

/-- C10: patterns are matched with `re.match`, anchored at the start only:
`"14.02.1990 extra"` parses as the prefix `14.02.1990` with the trailing
text ignored; and for every input, the first matching rule is never the
dedicated trailing-dot `%d.%m.` rule, because the earlier `%d.%m` rule
already matches any prefix the trailing-dot rule would (concretely,
`"14.02."` is consumed by the `%d.%m` rule as the prefix `"14.02"`). -/
theorem C10_prefix_matching :
    (∀ today : Date, dateLtB today ⟨1990, 2, 14⟩ = false →
      parse_date "14.02.1990 extra" today = .ok (some 1990, 2, 14)) ∧
    (∀ (s matched : List Char) (f : Fmt),
      firstPatternMatch s = some (matched, f) → f ≠ Fmt.dotTrailing) ∧
    firstPatternMatch "14.02.".data = some ("14.02".data, Fmt.dotNoYear) := by
  refine ⟨?_, ?_, by decide⟩
  · intro today h
    have h1 : firstPatternMatch (stripChars ("14.02.1990 extra".data)) =
        some ("14.02.1990".data, Fmt.dotY4) := by decide
    have h2 : strptimeDate Fmt.dotY4 ("14.02.1990".data) = .ok ⟨1990, 2, 14⟩ := by
      rfl
    unfold parse_date
    rw [h1]
    show parseWithFmt ("14.02.1990".data) Fmt.dotY4 today = Except.ok (some 1990, 2, 14)
    unfold parseWithFmt
    rw [h2]
    simp [fmtHasYear, h]
  · intro s matched f h hf
    subst hf
    simp only [firstPatternMatch, PATTERNS_DATE, firstSome] at h
    cases h0 : reMatch patIsoY4 s with
    | some q => simp [h0] at h
    | none =>
    simp only [h0, Option.map_none'] at h
    cases h1 : reMatch patIsoY2 s with
    | some q => simp [h1] at h
    | none =>
    simp only [h1, Option.map_none'] at h
    cases h2 : reMatch patMonthDay s with
    | some q => simp [h2] at h
    | none =>
    simp only [h2, Option.map_none'] at h
    cases h3 : reMatch patDotY4 s with
    | some q => simp [h3] at h
    | none =>
    simp only [h3, Option.map_none'] at h
    cases h4 : reMatch patDotY2 s with
    | some q => simp [h4] at h
    | none =>
    simp only [h4, Option.map_none'] at h
    cases h5 : reMatch patDotNoYear s with
    | some q => simp [h5] at h
    | none =>
    simp only [h5, Option.map_none'] at h
    rw [dotTrailing_from_dotNoYear s h5] at h
    simp only [Option.map_none'] at h
    cases h7 : reMatch patSlashY4 s with
    | some q => simp [h7] at h
    | none =>
    simp only [h7, Option.map_none'] at h
    cases h8 : reMatch patSlashY2 s with
    | some q => simp [h8] at h
    | none =>
    simp only [h8, Option.map_none'] at h
    cases h9 : reMatch patSlashNoYear s with
    | some q => simp [h9] at h
    | none => simp [h9] at h

/-- C10 witness: the prefix-parsing theorem applied on a concrete day, and
the never-first fact applied to the concrete `"14.02."` match. -/
theorem C10_prefix_matching_witness :
    parse_date "14.02.1990 extra" ⟨2026, 10, 12⟩ = .ok (some 1990, 2, 14) ∧
    Fmt.dotNoYear ≠ Fmt.dotTrailing :=
  ⟨C10_prefix_matching.1 ⟨2026, 10, 12⟩ (by decide),
   C10_prefix_matching.2.1 "14.02.".data "14.02".data Fmt.dotNoYear
     C10_prefix_matching.2.2⟩

/-- C3: `parse_date` raises the no-match `BirthdayParseError` when no
pattern matches the stripped input; raises the distinct future-date
`BirthdayParseError` when a year-bearing layout parses to a date strictly
after today; and succeeds when that date equals today.  The two errors
are distinct values (different messages of the same Python class). -/
theorem C3_error_taxonomy :
    (∀ (text : String) (today : Date),
      firstPatternMatch (stripChars text.data) = none →
      parse_date text today =
        .error (.birthdayParseError
          "The birthday you've entered cannot be parsed. :pensive:")) ∧
    (∀ (text : String) (today : Date) (matched : List Char) (f : Fmt) (dt : Date),
      firstPatternMatch (stripChars text.data) = some (matched, f) →
      fmtHasYear f = true →
      strptimeDate f matched = .ok dt →
      dateLtB today dt = true →
      parse_date text today =
        .error (.birthdayParseError "You cannot be born in the future.")) ∧
    (∀ (text : String) (today : Date) (matched : List Char) (f : Fmt),
      firstPatternMatch (stripChars text.data) = some (matched, f) →
      fmtHasYear f = true →
      strptimeDate f matched = .ok today →
      parse_date text today = .ok (some today.year, today.month, today.day)) ∧
    PyError.birthdayParseError
        "The birthday you've entered cannot be parsed. :pensive:" ≠
      PyError.birthdayParseError "You cannot be born in the future." := by
  refine ⟨?_, ?_, ?_, by decide⟩
  · intro text today h
    simp only [parse_date, h]
  · intro text today matched f dt h hy hs hlt
    simp only [parse_date, h, parseWithFmt, hy, hs, hlt]
    rfl
  · intro text today matched f h hy hs
    have hir : dateLtB today today = false := by simp [dateLtB]
    simp only [parse_date, h, parseWithFmt, hy, hs, hir]
    rfl

/-- C3 witness: the three branches exercised on concrete inputs with
today = 2026-10-12. -/
theorem C3_error_taxonomy_witness :
    parse_date "hello" ⟨2026, 10, 12⟩ =
      .error (.birthdayParseError
        "The birthday you've entered cannot be parsed. :pensive:") ∧
    parse_date "3000-01-01" ⟨2026, 10, 12⟩ =
      .error (.birthdayParseError "You cannot be born in the future.") ∧
    parse_date "2026-10-12" ⟨2026, 10, 12⟩ = .ok (some 2026, 10, 12) :=
  ⟨C3_error_taxonomy.1 "hello" ⟨2026, 10, 12⟩ (by decide),
   C3_error_taxonomy.2.1 "3000-01-01" ⟨2026, 10, 12⟩ "3000-01-01".data .isoY4
     ⟨3000, 1, 1⟩ (by decide) (by decide) (by rfl) (by decide),
   C3_error_taxonomy.2.2.1 "2026-10-12" ⟨2026, 10, 12⟩ "2026-10-12".data .isoY4
     (by decide) (by decide) (by rfl)⟩

/-- `firstSome` over an appended list tries the left part first. -/
theorem firstSome_append {α β : Type} (f : α → Option β) (l1 l2 : List α) :
    firstSome f (l1 ++ l2) =
      (match firstSome f l1 with
       | some b => some b
       | none => firstSome f l2) := by
  induction l1 with
  | nil => simp [firstSome]
  | cons a rest ih =>
      simp only [List.cons_append, firstSome]
      cases f a with
      | some b => rfl
      | none => exact ih

/-- `firstSome` over a mapped list composes the functions. -/
theorem firstSome_map {α β γ : Type} (f : β → Option γ) (g : α → β) (l : List α) :
    firstSome f (l.map g) = firstSome (fun x => f (g x)) l := by
  induction l with
  | nil => rfl
  | cons a rest ih =>
      simp only [List.map_cons, firstSome]
      cases f (g a) with
      | some b => rfl
      | none => exact ih

/-- `firstSome` of a pointwise-mapped result is the mapped `firstSome`. -/
theorem firstSome_opMap {α β γ : Type} (f : α → Option β) (g : β → γ) (l : List α) :
    firstSome (fun x => Option.map g (f x)) l = Option.map g (firstSome f l) := by
  induction l with
  | nil => rfl
  | cons a rest ih =>
      simp only [firstSome]
      cases f a with
      | some b => rfl
      | none => exact ih

/-- If every element yields `none`, so does `firstSome`. -/
theorem firstSome_all_none {α β : Type} (f : α → Option β) (l : List α)
    (h : ∀ x ∈ l, f x = none) : firstSome f l = none := by
  induction l with
  | nil => rfl
  | cons a rest ih =>
      simp only [firstSome]
      rw [h a (by simp)]
      exact ih (fun x hx => h x (by simp [hx]))

/-- The empty pattern matches everything, consuming nothing. -/
theorem reMatch_nil (s : List Char) : reMatch [] s = some ([], [], s) := rfl

/-- Stepping a literal: with the right head character, a match of the rest
extends to a match of the whole. -/
theorem lit_step (c : Char) (ds : List Dir) (s : List Char)
    (caps : List (List Char)) (con rest : List Char)
    (hrest : reMatch ds s = some (caps, con, rest)) :
    reMatch (Dir.lit c :: ds) (c :: s) = some (caps, c :: con, rest) := by
  unfold reMatch at hrest ⊢
  simp only [expandDirs, firstSome_map]
  have step : ∀ a : List Chunk,
      matchChunks (Chunk.lit c :: a) (c :: s) =
        Option.map (fun q => (q.1, c :: q.2.1, q.2.2)) (matchChunks a s) := by
    intro a
    simp [matchChunks]
  simp only [step]
  rw [firstSome_opMap, hrest]
  rfl

/-- Stepping a group: if the alternatives before `a` fail on their classes,
`a`'s classes match, and the remaining directives match the remaining
input, the whole group directive matches, capturing `a`'s characters. -/
theorem grp_step (as1 : List (List CharClass)) (a : List CharClass)
    (as2 : List (List CharClass)) (ds : List Dir) (s s' cap : List Char)
    (caps : List (List Char)) (con rest : List Char)
    (hfail : ∀ x ∈ as1, matchClasses x s = none)
    (hok : matchClasses a s = some (cap, s'))
    (hrest : reMatch ds s' = some (caps, con, rest)) :
    reMatch (Dir.grp (as1 ++ a :: as2) :: ds) s =
      some (cap :: caps, cap ++ con, rest) := by
  unfold reMatch at hrest ⊢
  simp only [expandDirs, List.map_append, List.map_cons, List.flatten_append,
    List.flatten_cons]
  rw [firstSome_append]
  have hskip : firstSome (fun alt => matchChunks alt s)
      ((as1.map (fun cs => (expandDirs ds).map
        (fun alt => Chunk.grp cs :: alt))).flatten) = none := by
    apply firstSome_all_none
    intro x hx
    rw [List.mem_flatten] at hx
    obtain ⟨blk, hblk, hxblk⟩ := hx
    rw [List.mem_map] at hblk
    obtain ⟨cs, hcs, rfl⟩ := hblk
    rw [List.mem_map] at hxblk
    obtain ⟨alt, _, rfl⟩ := hxblk
    simp [matchChunks, hfail cs hcs]
  rw [hskip]
  rw [firstSome_append]
  have hblockA : firstSome (fun alt => matchChunks alt s)
      ((expandDirs ds).map (fun alt => Chunk.grp a :: alt)) =
      some (cap :: caps, cap ++ con, rest) := by
    rw [firstSome_map]
    have step : ∀ alt : List Chunk,
        matchChunks (Chunk.grp a :: alt) s =
          Option.map (fun q => (cap :: q.1, cap ++ q.2.1, q.2.2))
            (matchChunks alt s') := by
      intro alt
      simp [matchChunks, hok]
    simp only [step]
    rw [firstSome_opMap, hrest]
    rfl
  rw [hblockA]

/-- A digit character is in the `\d` class. -/
theorem digitChar_isDigit (k : Nat) (h : k < 10) : isDigitCh (digitChar k) = true := by
  interval_cases k <;> decide

/-- A digit character is not whitespace. -/
theorem digitChar_not_space (k : Nat) (h : k < 10) :
    isSpaceCh (digitChar k) = false := by
  interval_cases k <;> decide

/-- A digit character is none of the separator literals. -/
theorem digitChar_ne_sep (k : Nat) (h : k < 10) :
    digitChar k ≠ '-' ∧ digitChar k ≠ '.' ∧ digitChar k ≠ '/' ∧ digitChar k ≠ ' ' := by
  interval_cases k <;> decide

/-- Small digits are in the `[01]` class. -/
theorem digitChar_in01 (k : Nat) (h : k ≤ 1) : in01 (digitChar k) = true := by
  interval_cases k <;> decide

/-- Digits up to three are in the `[0123]` class. -/
theorem digitChar_in0123 (k : Nat) (h : k ≤ 3) : in0123 (digitChar k) = true := by
  interval_cases k <;> decide

/-- Nonzero digits are in the `[1-9]` class. -/
theorem digitChar_nz19 (k : Nat) (h1 : 1 ≤ k) (h2 : k ≤ 9) :
    nz19 (digitChar k) = true := by
  interval_cases k <;> decide

/-- Digits other than three are not in the `[3]` class. -/
theorem digitChar_not3 (k : Nat) (h : k < 10) (hne : k ≠ 3) :
    isIn ['3'] (digitChar k) = false := by
  interval_cases k <;> first | decide | (exfalso; exact hne rfl)

/-- Digits one and two are in the `[12]` class. -/
theorem digitChar_in12 (k : Nat) (h1 : 1 ≤ k) (h2 : k ≤ 2) :
    isIn ['1', '2'] (digitChar k) = true := by
  interval_cases k <;> decide

/-- Zero is not in the `[12]` class. -/
theorem digitChar0_not12 : isIn ['1', '2'] (digitChar 0) = false := by decide

/-- Digits other than one are not in the `[1]` class. -/
theorem digitChar_not1 (k : Nat) (h : k < 10) (hne : k ≠ 1) :
    isIn ['1'] (digitChar k) = false := by
  interval_cases k <;> first | decide | (exfalso; exact hne rfl)

/-- Digits up to two are in the `[0-2]` class. -/
theorem digitChar_in012 (k : Nat) (h : k ≤ 2) :
    isIn ['0', '1', '2'] (digitChar k) = true := by
  interval_cases k <;> decide

/-- The numeric value of a digit character. -/
theorem charVal_digitChar (k : Nat) (h : k < 10) : charVal (digitChar k) = k := by
  interval_cases k <;> decide

/-- Rendering is independent of the fuel, as long as there is enough. -/
theorem natLitAux_fuel_irrel (f1 : Nat) : ∀ (f2 n : Nat) (acc : List Char),
    n < 10 ^ f1 → n < 10 ^ f2 → natLitAux f1 n acc = natLitAux f2 n acc := by
  induction f1 with
  | zero =>
      intro f2 n acc h1 h2
      have hn : n = 0 := by simpa using h1
      subst hn
      cases f2 with
      | zero => rfl
      | succ g => simp [natLitAux]
  | succ g1 ih =>
      intro f2 n acc h1 h2
      by_cases hn : n = 0
      · subst hn
        cases f2 with
        | zero => simp [natLitAux]
        | succ g2 => simp [natLitAux]
      · cases f2 with
        | zero =>
            exfalso
            have : n = 0 := by simpa using h2
            exact hn this
        | succ g2 =>
            simp only [natLitAux, if_neg hn]
            apply ih
            · rw [Nat.div_lt_iff_lt_mul (by norm_num)]
              calc n < 10 ^ (g1 + 1) := h1
              _ = 10 ^ g1 * 10 := by ring
            · rw [Nat.div_lt_iff_lt_mul (by norm_num)]
              calc n < 10 ^ (g2 + 1) := h2
              _ = 10 ^ g2 * 10 := by ring

/-- A four-digit year renders as its four digit characters. -/
theorem natLit4 (y : Nat) (h1 : 1000 ≤ y) (h2 : y ≤ 9999) :
    natLit y = [digitChar (y / 1000), digitChar (y / 100 % 10),
                digitChar (y / 10 % 10), digitChar (y % 10)] := by
  have hy0 : ¬ (y = 0) := by omega
  unfold natLit
  rw [if_neg hy0]
  rw [natLitAux_fuel_irrel y 4 y [] (Nat.lt_pow_self (by norm_num) y)
    (by norm_num; omega)]
  have hA : ¬ (y / 10 = 0) := by omega
  have hB : ¬ (y / 10 / 10 = 0) := by omega
  have hC : ¬ (y / 10 / 10 / 10 = 0) := by omega
  simp only [natLitAux, if_neg hy0, if_neg hA, if_neg hB, if_neg hC]
  have hD : y / 10 / 10 / 10 % 10 = y / 1000 := by omega
  have hE : y / 10 / 10 % 10 = y / 100 % 10 := by omega
  rw [hD, hE]

/-- A number up to 99 zero-pads to its two digit characters. -/
theorem pad2_eq (n : Nat) (h : n ≤ 99) :
    pad2 n = [digitChar (n / 10), digitChar (n % 10)] := by
  unfold pad2
  by_cases h10 : n < 10
  · rw [if_pos h10]
    have ha : n / 10 = 0 := by omega
    have hb : n % 10 = n := by omega
    rw [ha, hb]
    rfl
  · rw [if_neg h10]
    unfold natLit
    have hn0 : ¬ (n = 0) := by omega
    rw [if_neg hn0]
    rw [natLitAux_fuel_irrel n 2 n [] (Nat.lt_pow_self (by norm_num) n)
      (by norm_num; omega)]
    have hA : ¬ (n / 10 = 0) := by omega
    simp only [natLitAux, if_neg hn0, if_neg hA]
    have hB : n / 10 % 10 = n / 10 := by omega
    rw [hB]

/-- Stepping the `\d` directive over a digit character. -/
theorem dirDigit_step (c : Char) (hc : isDigitCh c = true) (ds : List Dir)
    (s : List Char) (caps : List (List Char)) (con rest : List Char)
    (hrest : reMatch ds s = some (caps, con, rest)) :
    reMatch (dirDigit :: ds) (c :: s) = some ([c] :: caps, c :: con, rest) := by
  have h := grp_step [] [isDigitCh] [] ds (c :: s) s [c] caps con rest
    (by simp) (by simp [matchClasses, hc]) hrest
  simpa [dirDigit] using h

/-- Stepping an optional-class-then-digit regex piece in its two-character
form: the greedy two-character alternative applies. -/
theorem dirOpt2_step2 (cl : CharClass) (a b : Char) (hcl : cl a = true)
    (hb : isDigitCh b = true) (ds : List Dir) (s : List Char)
    (caps : List (List Char)) (con rest : List Char)
    (hrest : reMatch ds s = some (caps, con, rest)) :
    reMatch (dirOpt2 cl :: ds) (a :: b :: s) =
      some ([a, b] :: caps, a :: b :: con, rest) := by
  have h := grp_step [] [cl, isDigitCh] [[isDigitCh]] ds (a :: b :: s) s [a, b]
    caps con rest (by simp) (by simp [matchClasses, hcl, hb]) hrest
  simpa [dirOpt2] using h

/-- Stepping `%Y` over four digit characters. -/
theorem dirY4_step (c1 c2 c3 c4 : Char) (h1 : isDigitCh c1 = true)
    (h2 : isDigitCh c2 = true) (h3 : isDigitCh c3 = true) (h4 : isDigitCh c4 = true)
    (ds : List Dir) (s : List Char) (caps : List (List Char)) (con rest : List Char)
    (hrest : reMatch ds s = some (caps, con, rest)) :
    reMatch (dirY4 :: ds) (c1 :: c2 :: c3 :: c4 :: s) =
      some ([c1, c2, c3, c4] :: caps, c1 :: c2 :: c3 :: c4 :: con, rest) := by
  have h := grp_step [] [isDigitCh, isDigitCh, isDigitCh, isDigitCh] [] ds
    (c1 :: c2 :: c3 :: c4 :: s) s [c1, c2, c3, c4] caps con rest
    (by simp) (by simp [matchClasses, h1, h2, h3, h4]) hrest
  simpa [dirY4] using h

/-- Stepping `%d` over the zero-padded two-character form of a day 1–31:
the correct alternative of `3[01]|[12]\d|0[1-9]|[1-9]` applies. -/
theorem dirD_step (d : Nat) (hd1 : 1 ≤ d) (hd31 : d ≤ 31) (ds : List Dir)
    (s : List Char) (caps : List (List Char)) (con rest : List Char)
    (hrest : reMatch ds s = some (caps, con, rest)) :
    reMatch (dirD :: ds) (digitChar (d / 10) :: digitChar (d % 10) :: s) =
      some ([digitChar (d / 10), digitChar (d % 10)] :: caps,
        digitChar (d / 10) :: digitChar (d % 10) :: con, rest) := by
  have hmod : d % 10 < 10 := Nat.mod_lt _ (by norm_num)
  rcases Nat.lt_or_ge d 10 with hlt | hge
  · have hq : d / 10 = 0 := by omega
    have hm : d % 10 = d := by omega
    rw [hq, hm]
    have h := grp_step [[isIn ['3'], in01], [isIn ['1', '2'], isDigitCh]]
      [isIn ['0'], nz19] [[nz19]] ds (digitChar 0 :: digitChar d :: s) s
      [digitChar 0, digitChar d] caps con rest
      (by
        intro x hx
        simp only [List.mem_cons, List.not_mem_nil, or_false] at hx
        rcases hx with rfl | rfl
        · simp [matchClasses, show isIn ['3'] (digitChar 0) = false from by decide]
        · simp [matchClasses,
            show isIn ['1', '2'] (digitChar 0) = false from by decide])
      (by simp [matchClasses, show isIn ['0'] (digitChar 0) = true from by decide,
        digitChar_nz19 d hd1 (by omega)])
      hrest
    simpa [dirD] using h
  · rcases Nat.lt_or_ge d 30 with hlt30 | hge30
    · have hq1 : 1 ≤ d / 10 := by omega
      have hq2 : d / 10 ≤ 2 := by omega
      have h := grp_step [[isIn ['3'], in01]] [isIn ['1', '2'], isDigitCh] 
        [[isIn ['0'], nz19], [nz19]] ds
        (digitChar (d / 10) :: digitChar (d % 10) :: s) s
        [digitChar (d / 10), digitChar (d % 10)] caps con rest
        (by
          intro x hx
          simp only [List.mem_cons, List.not_mem_nil, or_false] at hx
          subst hx
          simp [matchClasses, digitChar_not3 (d / 10) (by omega) (by omega)])
        (by simp [matchClasses, digitChar_in12 (d / 10) hq1 hq2,
          digitChar_isDigit (d % 10) hmod])
        hrest
      simpa [dirD] using h
    · have hq : d / 10 = 3 := by omega
      have hm : d % 10 ≤ 1 := by omega
      rw [hq]
      have h := grp_step [] [isIn ['3'], in01]
        [[isIn ['1', '2'], isDigitCh], [isIn ['0'], nz19], [nz19]] ds
        (digitChar 3 :: digitChar (d % 10) :: s) s
        [digitChar 3, digitChar (d % 10)] caps con rest
        (by simp)
        (by simp [matchClasses, show isIn ['3'] (digitChar 3) = true from by decide,
          digitChar_in01 (d % 10) hm])
        hrest
      simpa [dirD] using h

/-- Stepping `%m` over the zero-padded two-character form of a month 1–12:
the correct alternative of `1[0-2]|0[1-9]|[1-9]` applies. -/
theorem dirM_step (m : Nat) (hm1 : 1 ≤ m) (hm12 : m ≤ 12) (ds : List Dir)
    (s : List Char) (caps : List (List Char)) (con rest : List Char)
    (hrest : reMatch ds s = some (caps, con, rest)) :
    reMatch (dirM :: ds) (digitChar (m / 10) :: digitChar (m % 10) :: s) =
      some ([digitChar (m / 10), digitChar (m % 10)] :: caps,
        digitChar (m / 10) :: digitChar (m % 10) :: con, rest) := by
  rcases Nat.lt_or_ge m 10 with hlt | hge
  · have hq : m / 10 = 0 := by omega
    have hmm : m % 10 = m := by omega
    rw [hq, hmm]
    have h := grp_step [[isIn ['1'], isIn ['0', '1', '2']]] [isIn ['0'], nz19]
      [[nz19]] ds (digitChar 0 :: digitChar m :: s) s [digitChar 0, digitChar m]
      caps con rest
      (by
        intro x hx
        simp only [List.mem_cons, List.not_mem_nil, or_false] at hx
        subst hx
        simp [matchClasses, show isIn ['1'] (digitChar 0) = false from by decide])
      (by simp [matchClasses, show isIn ['0'] (digitChar 0) = true from by decide,
        digitChar_nz19 m hm1 (by omega)])
      hrest
    simpa [dirM] using h
  · have hq : m / 10 = 1 := by omega
    have hmm : m % 10 ≤ 2 := by omega
    rw [hq]
    have h := grp_step [] [isIn ['1'], isIn ['0', '1', '2']]
      [[isIn ['0'], nz19], [nz19]] ds (digitChar 1 :: digitChar (m % 10) :: s) s
      [digitChar 1, digitChar (m % 10)] caps con rest
      (by simp)
      (by simp [matchClasses, show isIn ['1'] (digitChar 1) = true from by decide,
        digitChar_in012 (m % 10) hmm])
      hrest
    simpa [dirM] using h

/-- The four-digit ISO pattern fails on input whose third character is a
dot. -/
theorem patIsoY4_fails_dotted (a b : Char) (t : List Char)
    (ha : isDigitCh a = true) (hb : isDigitCh b = true) :
    reMatch patIsoY4 (a :: b :: '.' :: t) = none := by
  apply firstSome_all_none
  intro x hx
  have hdot : isDigitCh '.' = false := by decide
  simp only [patIsoY4, dirDigit, dirOpt2, expandDirs, List.map_cons, List.map_nil,
    List.flatten_cons, List.flatten_nil, List.append_nil, List.nil_append,
    List.mem_cons, List.not_mem_nil, or_false, List.cons_append] at hx
  rcases hx with rfl | rfl | rfl | rfl <;>
    simp [matchChunks, matchClasses, ha, hb, hdot]

/-- The two-digit ISO pattern fails on input whose third character is a
dot. -/
theorem patIsoY2_fails_dotted (a b : Char) (t : List Char)
    (ha : isDigitCh a = true) (hb : isDigitCh b = true) :
    reMatch patIsoY2 (a :: b :: '.' :: t) = none := by
  apply firstSome_all_none
  intro x hx
  have hne : ¬ (('.' : Char) = '-') := by decide
  simp only [patIsoY2, dirDigit, dirOpt2, expandDirs, List.map_cons, List.map_nil,
    List.flatten_cons, List.flatten_nil, List.append_nil, List.nil_append,
    List.mem_cons, List.not_mem_nil, or_false, List.cons_append] at hx
  rcases hx with rfl | rfl | rfl | rfl <;>
    simp [matchChunks, matchClasses, ha, hb, hne]

/-- The bare `m-d` pattern fails on input whose second character is a
digit and third character is a dot. -/
theorem patMonthDay_fails_dotted (a b : Char) (t : List Char)
    (ha : isDigitCh a = true) (hb : isDigitCh b = true) (hbne : ¬ (b = '-')) :
    reMatch patMonthDay (a :: b :: '.' :: t) = none := by
  apply firstSome_all_none
  intro x hx
  have hne : ¬ (('.' : Char) = '-') := by decide
  simp only [patMonthDay, dirDigit, dirOpt2, expandDirs, List.map_cons, List.map_nil,
    List.flatten_cons, List.flatten_nil, List.append_nil, List.nil_append,
    List.mem_cons, List.not_mem_nil, or_false, List.cons_append] at hx
  rcases hx with rfl | rfl | rfl | rfl <;>
    by_cases h01 : in01 a = true <;>
      simp [matchChunks, matchClasses, ha, hb, hne, hbne, h01]

/-- The dotted four-digit-year pattern fails on the six-character
`dd.mm.` shape: no year digits follow the second dot. -/
theorem patDotY4_fails_short (a b c e : Char)
    (ha : isDigitCh a = true) (hb : isDigitCh b = true) (hbne : ¬ (b = '.'))
    (hc : isDigitCh c = true) (he : isDigitCh e = true) (hene : ¬ (e = '.')) :
    reMatch patDotY4 [a, b, '.', c, e, '.'] = none := by
  apply firstSome_all_none
  intro x hx
  simp only [patDotY4, dirDigit, dirOpt2, expandDirs, List.map_cons, List.map_nil,
    List.flatten_cons, List.flatten_nil, List.append_nil, List.nil_append,
    List.mem_cons, List.not_mem_nil, or_false, List.cons_append] at hx
  rcases hx with rfl | rfl | rfl | rfl <;>
    by_cases h0123 : in0123 a = true <;>
      by_cases h01 : in01 c = true <;>
        simp [matchChunks, matchClasses, ha, hb, hbne, hc, he, hene, h0123, h01]

/-- The dotted two-digit-year pattern fails on the six-character `dd.mm.`
shape: no year digits follow the second dot. -/
theorem patDotY2_fails_short (a b c e : Char)
    (ha : isDigitCh a = true) (hb : isDigitCh b = true) (hbne : ¬ (b = '.'))
    (hc : isDigitCh c = true) (he : isDigitCh e = true) (hene : ¬ (e = '.')) :
    reMatch patDotY2 [a, b, '.', c, e, '.'] = none := by
  apply firstSome_all_none
  intro x hx
  simp only [patDotY2, dirDigit, dirOpt2, expandDirs, List.map_cons, List.map_nil,
    List.flatten_cons, List.flatten_nil, List.append_nil, List.nil_append,
    List.mem_cons, List.not_mem_nil, or_false, List.cons_append] at hx
  rcases hx with rfl | rfl | rfl | rfl <;>
    by_cases h0123 : in0123 a = true <;>
      by_cases h01 : in01 c = true <;>
        simp [matchChunks, matchClasses, ha, hb, hbne, hc, he, hene, h0123, h01]

/-- The dotted four-digit-year pattern consumes the whole `dd.mm.yyyy`
shape. -/
theorem patDotY4_matches (a b c e y1 y2 y3 y4 : Char)
    (h0123 : in0123 a = true) (hb : isDigitCh b = true)
    (h01 : in01 c = true) (he : isDigitCh e = true)
    (hy1 : isDigitCh y1 = true) (hy2 : isDigitCh y2 = true)
    (hy3 : isDigitCh y3 = true) (hy4 : isDigitCh y4 = true) :
    reMatch patDotY4 [a, b, '.', c, e, '.', y1, y2, y3, y4] =
      some ([[a, b], [c, e], [y1], [y2], [y3], [y4]],
        [a, b, '.', c, e, '.', y1, y2, y3, y4], []) := by
  exact dirOpt2_step2 in0123 a b h0123 hb _ _ _ _ _
    (lit_step '.' _ _ _ _ _
      (dirOpt2_step2 in01 c e h01 he _ _ _ _ _
        (lit_step '.' _ _ _ _ _
          (dirDigit_step y1 hy1 _ _ _ _ _
            (dirDigit_step y2 hy2 _ _ _ _ _
              (dirDigit_step y3 hy3 _ _ _ _ _
                (dirDigit_step y4 hy4 _ _ _ _ _ (reMatch_nil []))))))))

/-- The dotted no-year pattern consumes the `dd.mm` prefix of the
`dd.mm.` shape, leaving the trailing dot. -/
theorem patDotNoYear_matches (a b c e : Char) (t : List Char)
    (h0123 : in0123 a = true) (hb : isDigitCh b = true)
    (h01 : in01 c = true) (he : isDigitCh e = true) :
    reMatch patDotNoYear (a :: b :: '.' :: c :: e :: t) =
      some ([[a, b], [c, e]], [a, b, '.', c, e], t) := by
  exact dirOpt2_step2 in0123 a b h0123 hb _ _ _ _ _
    (lit_step '.' _ _ _ _ _
      (dirOpt2_step2 in01 c e h01 he _ _ _ _ _ (reMatch_nil t)))

/-- Value of a two-digit capture. -/
theorem capVal2 (x y : Nat) (hx : x < 10) (hy : y < 10) :
    capVal [digitChar x, digitChar y] = 10 * x + y := by
  simp [capVal, List.foldl, charVal_digitChar x hx, charVal_digitChar y hy]

/-- Value of the four-digit year capture. -/
theorem capVal4 (y : Nat) (h1 : 1000 ≤ y) (h2 : y ≤ 9999) :
    capVal [digitChar (y / 1000), digitChar (y / 100 % 10),
      digitChar (y / 10 % 10), digitChar (y % 10)] = y := by
  simp [capVal, List.foldl, charVal_digitChar (y / 1000) (by omega),
    charVal_digitChar (y / 100 % 10) (by omega),
    charVal_digitChar (y / 10 % 10) (by omega),
    charVal_digitChar (y % 10) (by omega)]
  omega

/-- Every month length is at most 31. -/
theorem daysInMonth_le (y m : Nat) : daysInMonth y m ≤ 31 := by
  unfold daysInMonth
  split <;> (try split) <;> omega

/-- `dropWhile` is the identity when no element satisfies the predicate
(only the head matters). -/
theorem dropWhile_false (p : Char → Bool) (s : List Char)
    (h : ∀ c ∈ s, p c = false) : s.dropWhile p = s := by
  cases s with
  | nil => rfl
  | cons x t =>
      rw [List.dropWhile_cons, h x (by simp)]
      simp

/-- `str.strip` is the identity on whitespace-free text. -/
theorem stripChars_nospace (s : List Char) (h : ∀ c ∈ s, isSpaceCh c = false) :
    stripChars s = s := by
  unfold stripChars
  rw [dropWhile_false _ _ h]
  rw [dropWhile_false _ _ (fun c hc => h c (List.mem_reverse.mp hc))]
  exact List.reverse_reverse s

/-- On the ten-character `dd.mm.yyyy` shape the first matching pattern is
the dotted four-digit-year one, consuming everything. -/
theorem firstPatternMatch_S1 (a b c e y1 y2 y3 y4 : Char)
    (ha : isDigitCh a = true) (h0123 : in0123 a = true)
    (hb : isDigitCh b = true) (hbne : ¬ (b = '-'))
    (_hc : isDigitCh c = true) (h01 : in01 c = true)
    (he : isDigitCh e = true)
    (hy1 : isDigitCh y1 = true) (hy2 : isDigitCh y2 = true)
    (hy3 : isDigitCh y3 = true) (hy4 : isDigitCh y4 = true) :
    firstPatternMatch [a, b, '.', c, e, '.', y1, y2, y3, y4] =
      some ([a, b, '.', c, e, '.', y1, y2, y3, y4], Fmt.dotY4) := by
  simp only [firstPatternMatch, PATTERNS_DATE, firstSome,
    patIsoY4_fails_dotted a b [c, e, '.', y1, y2, y3, y4] ha hb,
    patIsoY2_fails_dotted a b [c, e, '.', y1, y2, y3, y4] ha hb,
    patMonthDay_fails_dotted a b [c, e, '.', y1, y2, y3, y4] ha hb hbne,
    patDotY4_matches a b c e y1 y2 y3 y4 h0123 hb h01 he hy1 hy2 hy3 hy4,
    Option.map_none', Option.map_some']

/-- On the six-character `dd.mm.` shape the first matching pattern is the
dotted no-year one, consuming `dd.mm` and leaving the trailing dot. -/
theorem firstPatternMatch_S2 (a b c e : Char)
    (ha : isDigitCh a = true) (h0123 : in0123 a = true)
    (hb : isDigitCh b = true) (hbne : ¬ (b = '-')) (hbdot : ¬ (b = '.'))
    (hc : isDigitCh c = true) (h01 : in01 c = true)
    (he : isDigitCh e = true) (hedot : ¬ (e = '.')) :
    firstPatternMatch [a, b, '.', c, e, '.'] =
      some ([a, b, '.', c, e], Fmt.dotNoYear) := by
  simp only [firstPatternMatch, PATTERNS_DATE, firstSome,
    patIsoY4_fails_dotted a b [c, e, '.'] ha hb,
    patIsoY2_fails_dotted a b [c, e, '.'] ha hb,
    patMonthDay_fails_dotted a b [c, e, '.'] ha hb hbne,
    patDotY4_fails_short a b c e ha hb hbdot hc he hedot,
    patDotY2_fails_short a b c e ha hb hbdot hc he hedot,
    patDotNoYear_matches a b c e ['.'] h0123 hb h01 he,
    Option.map_none', Option.map_some']

/-- `strptime` with `%d.%m.%Y` on the padded rendering of a valid day,
month and four-digit year yields exactly that date. -/
theorem strptimeDate_dotY4 (y m d : Nat) (hy1 : 1000 ≤ y) (hy2 : y ≤ 9999)
    (hm1 : 1 ≤ m) (hm2 : m ≤ 12) (hd1 : 1 ≤ d) (hd2 : d ≤ daysInMonth y m) :
    strptimeDate Fmt.dotY4
      (digitChar (d / 10) :: digitChar (d % 10) :: '.' :: digitChar (m / 10) ::
        digitChar (m % 10) :: '.' :: natLit y) = .ok ⟨y, m, d⟩ := by
  have hd31 : d ≤ 31 := le_trans hd2 (daysInMonth_le y m)
  rw [natLit4 y hy1 hy2]
  have hmatch := dirD_step d hd1 (le_trans hd2 (daysInMonth_le y m)) _ _ _ _ _
    (lit_step '.' _ _ _ _ _
      (dirM_step m hm1 hm2 _ _ _ _ _
        (lit_step '.' _ _ _ _ _
          (dirY4_step (digitChar (y / 1000)) (digitChar (y / 100 % 10))
            (digitChar (y / 10 % 10)) (digitChar (y % 10))
            (digitChar_isDigit _ (by omega)) (digitChar_isDigit _ (by omega))
            (digitChar_isDigit _ (by omega)) (digitChar_isDigit _ (by omega))
            _ _ _ _ _ (reMatch_nil [])))))
  have hrun : strptimeRun (fmtDirs Fmt.dotY4)
      (digitChar (d / 10) :: digitChar (d % 10) :: '.' :: digitChar (m / 10) ::
        digitChar (m % 10) :: '.' :: digitChar (y / 1000) ::
        digitChar (y / 100 % 10) :: digitChar (y / 10 % 10) ::
        digitChar (y % 10) :: []) =
      .ok [[digitChar (d / 10), digitChar (d % 10)],
        [digitChar (m / 10), digitChar (m % 10)],
        [digitChar (y / 1000), digitChar (y / 100 % 10), digitChar (y / 10 % 10),
          digitChar (y % 10)]] := by
    unfold strptimeRun
    simp only [fmtDirs]
    rw [hmatch]
    rfl
  have hcaps : capsToYMD Fmt.dotY4
      [[digitChar (d / 10), digitChar (d % 10)],
        [digitChar (m / 10), digitChar (m % 10)],
        [digitChar (y / 1000), digitChar (y / 100 % 10), digitChar (y / 10 % 10),
          digitChar (y % 10)]] = some (y, m, d) := by
    simp only [capsToYMD, capVal4 y hy1 hy2,
      capVal2 (d / 10) (d % 10) (by omega) (by omega),
      capVal2 (m / 10) (m % 10) (by omega) (by omega)]
    have e1 : 10 * (m / 10) + m % 10 = m := by omega
    have e2 : 10 * (d / 10) + d % 10 = d := by omega
    rw [e1, e2]
  have hmk : mkDate y m d = .ok ⟨y, m, d⟩ := by
    unfold mkDate
    rw [if_neg (by simp only [Bool.or_eq_true, decide_eq_true_eq]; omega)]
    rw [if_neg (by simp only [Bool.or_eq_true, decide_eq_true_eq]; omega)]
    rw [if_neg (by simp only [Bool.or_eq_true, decide_eq_true_eq]; omega)]
  simp only [strptimeDate, hrun, hcaps, hmk]

/-- `strptime` with `%d.%m %Y` (the no-year layout plus the appended
year) on the padded rendering plus the current year yields the current
year with the given month and day. -/
theorem strptimeDate_dotNoYear (ty m d : Nat) (hty1 : 1000 ≤ ty) (hty2 : ty ≤ 9999)
    (hm1 : 1 ≤ m) (hm2 : m ≤ 12) (hd1 : 1 ≤ d) (hd31 : d ≤ 31)
    (hd2 : d ≤ daysInMonth ty m) :
    strptimeDate Fmt.dotNoYear
      (digitChar (d / 10) :: digitChar (d % 10) :: '.' :: digitChar (m / 10) ::
        digitChar (m % 10) :: ' ' :: natLit ty) = .ok ⟨ty, m, d⟩ := by
  rw [natLit4 ty hty1 hty2]
  have hmatch := dirD_step d hd1 hd31 _ _ _ _ _
    (lit_step '.' _ _ _ _ _
      (dirM_step m hm1 hm2 _ _ _ _ _
        (lit_step ' ' _ _ _ _ _
          (dirY4_step (digitChar (ty / 1000)) (digitChar (ty / 100 % 10))
            (digitChar (ty / 10 % 10)) (digitChar (ty % 10))
            (digitChar_isDigit _ (by omega)) (digitChar_isDigit _ (by omega))
            (digitChar_isDigit _ (by omega)) (digitChar_isDigit _ (by omega))
            _ _ _ _ _ (reMatch_nil [])))))
  have hrun : strptimeRun (fmtDirs Fmt.dotNoYear)
      (digitChar (d / 10) :: digitChar (d % 10) :: '.' :: digitChar (m / 10) ::
        digitChar (m % 10) :: ' ' :: digitChar (ty / 1000) ::
        digitChar (ty / 100 % 10) :: digitChar (ty / 10 % 10) ::
        digitChar (ty % 10) :: []) =
      .ok [[digitChar (d / 10), digitChar (d % 10)],
        [digitChar (m / 10), digitChar (m % 10)],
        [digitChar (ty / 1000), digitChar (ty / 100 % 10), digitChar (ty / 10 % 10),
          digitChar (ty % 10)]] := by
    unfold strptimeRun
    simp only [fmtDirs]
    rw [hmatch]
    rfl
  have hcaps : capsToYMD Fmt.dotNoYear
      [[digitChar (d / 10), digitChar (d % 10)],
        [digitChar (m / 10), digitChar (m % 10)],
        [digitChar (ty / 1000), digitChar (ty / 100 % 10), digitChar (ty / 10 % 10),
          digitChar (ty % 10)]] = some (ty, m, d) := by
    simp only [capsToYMD, capVal4 ty hty1 hty2,
      capVal2 (d / 10) (d % 10) (by omega) (by omega),
      capVal2 (m / 10) (m % 10) (by omega) (by omega)]
    have e1 : 10 * (m / 10) + m % 10 = m := by omega
    have e2 : 10 * (d / 10) + d % 10 = d := by omega
    rw [e1, e2]
  have hmk : mkDate ty m d = .ok ⟨ty, m, d⟩ := by
    unfold mkDate
    rw [if_neg (by simp only [Bool.or_eq_true, decide_eq_true_eq]; omega)]
    rw [if_neg (by simp only [Bool.or_eq_true, decide_eq_true_eq]; omega)]
    rw [if_neg (by simp only [Bool.or_eq_true, decide_eq_true_eq]; omega)]
  simp only [strptimeDate, hrun, hcaps, hmk]

/-- Composing `parse_date` from a known first pattern match. -/
theorem parse_date_of_first (text : String) (today : Date) (matched : List Char)
    (f : Fmt) (h : firstPatternMatch (stripChars text.data) = some (matched, f)) :
    parse_date text today = parseWithFmt matched f today := by
  simp only [parse_date, h]

/-- Evaluating `parseWithFmt` on a year-bearing layout that parses to a
non-future date. -/
theorem parseWithFmt_year (matched : List Char) (f : Fmt) (today dt : Date)
    (hy : fmtHasYear f = true) (hs : strptimeDate f matched = .ok dt)
    (hlt : dateLtB today dt = false) :
    parseWithFmt matched f today = .ok (some dt.year, dt.month, dt.day) := by
  simp [parseWithFmt, hy, hs, hlt]

/-- Evaluating `parseWithFmt` on a year-less layout whose validation
against the current year succeeds. -/
theorem parseWithFmt_noyear (matched : List Char) (f : Fmt) (today dt : Date)
    (hy : fmtHasYear f = false)
    (hs : strptimeDate f (matched ++ ' ' :: natLit today.year) = .ok dt) :
    parseWithFmt matched f today = .ok (none, dt.month, dt.day) := by
  simp [parseWithFmt, hy, hs]

/-- Evaluating `parseWithFmt` on a year-less layout whose validation
against the current year fails: the `ValueError` propagates. -/
theorem parseWithFmt_noyear_err (matched : List Char) (f : Fmt) (today : Date)
    (e : PyError) (hy : fmtHasYear f = false)
    (hs : strptimeDate f (matched ++ ' ' :: natLit today.year) = .error e) :
    parseWithFmt matched f today = .error e := by
  simp [parseWithFmt, hy, hs]

/-- C7 counterexample: the valid year-less record (month 2, day 29),
creatable while the current year is leap, formats as `"29.02."` but fails
to parse back on a non-leap day such as 2026-01-01 — the round-trip does
not hold for every valid record. -/
theorem C7_roundtrip_counterexample :
    birthdayStr ⟨1, 1, none, 2, 29, none, true, 0, 0⟩ = "29.02." ∧
    parse_date "29.02." ⟨2026, 1, 1⟩ =
      .error (.valueError "day is out of range for month") := by
  exact ⟨rfl, rfl⟩

/-- C7 amended: the round-trip holds whenever the formatted text is
re-validatable: a record with a four-digit year, a valid date not after
today, parses back to exactly (year, month, day); a year-less record
whose (month, day) is a valid date in the current year parses back to
(None, month, day).  (The Feb-29 exception in non-leap current years is
exactly what the counterexample exhibits.) -/
theorem C7_roundtrip_amended :
    (∀ (b : BirthdayRec) (y m d : Nat) (today : Date),
      b.year = some y → b.month = m → b.day = d →
      1000 ≤ y → y ≤ 9999 → 1 ≤ m → m ≤ 12 → 1 ≤ d → d ≤ daysInMonth y m →
      dateLtB today ⟨y, m, d⟩ = false →
      parse_date (birthdayStr b) today = .ok (some y, m, d)) ∧
    (∀ (b : BirthdayRec) (today : Date),
      b.year = none → 1 ≤ b.month → b.month ≤ 12 → 1 ≤ b.day →
      b.day ≤ daysInMonth today.year b.month →
      1000 ≤ today.year → today.year ≤ 9999 →
      parse_date (birthdayStr b) today = .ok (none, b.month, b.day)) := by
  constructor
  · intro b y m d today hby hbm hbd hy1 hy2 hm1 hm2 hd1 hd2 hlt
    have hd31 : d ≤ 31 := le_trans hd2 (daysInMonth_le y m)
    have hfmt : birthdayStr b =
        String.mk (pad2 d ++ '.' :: pad2 m ++ '.' :: natLit y) := by
      unfold birthdayStr
      rw [hby, hbm, hbd]
      simp only [Option.getD_some]
      rw [if_pos (by omega)]
    rw [hfmt, pad2_eq d (by omega), pad2_eq m (by omega), natLit4 y hy1 hy2]
    simp only [List.cons_append, List.nil_append]
    have hnospace : ∀ ch ∈ [digitChar (d / 10), digitChar (d % 10), '.',
        digitChar (m / 10), digitChar (m % 10), '.', digitChar (y / 1000),
        digitChar (y / 100 % 10), digitChar (y / 10 % 10), digitChar (y % 10)],
        isSpaceCh ch = false := by
      intro ch hch
      simp only [List.mem_cons, List.not_mem_nil, or_false] at hch
      rcases hch with rfl | rfl | rfl | rfl | rfl | rfl | rfl | rfl | rfl | rfl <;>
        first
          | decide
          | exact digitChar_not_space _ (by omega)
    have hfirst : firstPatternMatch (stripChars
        [digitChar (d / 10), digitChar (d % 10), '.', digitChar (m / 10),
          digitChar (m % 10), '.', digitChar (y / 1000), digitChar (y / 100 % 10),
          digitChar (y / 10 % 10), digitChar (y % 10)]) =
        some ([digitChar (d / 10), digitChar (d % 10), '.', digitChar (m / 10),
          digitChar (m % 10), '.', digitChar (y / 1000), digitChar (y / 100 % 10),
          digitChar (y / 10 % 10), digitChar (y % 10)], Fmt.dotY4) := by
      rw [stripChars_nospace _ hnospace]
      exact firstPatternMatch_S1 _ _ _ _ _ _ _ _
        (digitChar_isDigit _ (by omega)) (digitChar_in0123 _ (by omega))
        (digitChar_isDigit _ (by omega)) ((digitChar_ne_sep _ (by omega)).1)
        (digitChar_isDigit _ (by omega)) (digitChar_in01 _ (by omega))
        (digitChar_isDigit _ (by omega))
        (digitChar_isDigit _ (by omega)) (digitChar_isDigit _ (by omega))
        (digitChar_isDigit _ (by omega)) (digitChar_isDigit _ (by omega))
    rw [parse_date_of_first _ today _ _ hfirst]
    have hs : strptimeDate Fmt.dotY4
        [digitChar (d / 10), digitChar (d % 10), '.', digitChar (m / 10),
          digitChar (m % 10), '.', digitChar (y / 1000), digitChar (y / 100 % 10),
          digitChar (y / 10 % 10), digitChar (y % 10)] = .ok ⟨y, m, d⟩ := by
      have h0 := strptimeDate_dotY4 y m d hy1 hy2 hm1 hm2 hd1 hd2
      rwa [natLit4 y hy1 hy2] at h0
    exact parseWithFmt_year _ Fmt.dotY4 today ⟨y, m, d⟩ rfl hs hlt
  · intro b today hby hm1 hm2 hd1 hd2 hty1 hty2
    have hd31 : b.day ≤ 31 := le_trans hd2 (daysInMonth_le today.year b.month)
    have hfmt : birthdayStr b =
        String.mk (pad2 b.day ++ '.' :: pad2 b.month ++ ['.']) := by
      unfold birthdayStr
      rw [hby]
      simp only [Option.getD_none]
      rw [if_neg (by simp)]
    rw [hfmt, pad2_eq b.day (by omega), pad2_eq b.month (by omega)]
    simp only [List.cons_append, List.nil_append]
    have hnospace : ∀ ch ∈ [digitChar (b.day / 10), digitChar (b.day % 10), '.',
        digitChar (b.month / 10), digitChar (b.month % 10), '.'],
        isSpaceCh ch = false := by
      intro ch hch
      simp only [List.mem_cons, List.not_mem_nil, or_false] at hch
      rcases hch with rfl | rfl | rfl | rfl | rfl | rfl <;>
        first
          | decide
          | exact digitChar_not_space _ (by omega)
    have hfirst : firstPatternMatch (stripChars
        [digitChar (b.day / 10), digitChar (b.day % 10), '.',
          digitChar (b.month / 10), digitChar (b.month % 10), '.']) =
        some ([digitChar (b.day / 10), digitChar (b.day % 10), '.',
          digitChar (b.month / 10), digitChar (b.month % 10)], Fmt.dotNoYear) := by
      rw [stripChars_nospace _ hnospace]
      exact firstPatternMatch_S2 _ _ _ _
        (digitChar_isDigit _ (by omega)) (digitChar_in0123 _ (by omega))
        (digitChar_isDigit _ (by omega)) ((digitChar_ne_sep _ (by omega)).1)
        ((digitChar_ne_sep _ (by omega)).2.1)
        (digitChar_isDigit _ (by omega)) (digitChar_in01 _ (by omega))
        (digitChar_isDigit _ (by omega)) ((digitChar_ne_sep _ (by omega)).2.1)
    rw [parse_date_of_first _ today _ _ hfirst]
    exact parseWithFmt_noyear _ Fmt.dotNoYear today ⟨today.year, b.month, b.day⟩
      rfl (strptimeDate_dotNoYear today.year b.month b.day hty1 hty2 hm1 hm2 hd1
        hd31 hd2)

/-- C7 witness: the amended round-trip applied to a concrete year-bearing
record and a concrete year-less record on 2026-10-12. -/
theorem C7_roundtrip_witness :
    parse_date (birthdayStr ⟨1, 1, some 1990, 2, 14, none, true, 0, 0⟩)
      ⟨2026, 10, 12⟩ = .ok (some 1990, 2, 14) ∧
    parse_date (birthdayStr ⟨1, 1, none, 7, 31, none, true, 0, 0⟩)
      ⟨2026, 10, 12⟩ = .ok (none, 7, 31) :=
  ⟨C7_roundtrip_amended.1 ⟨1, 1, some 1990, 2, 14, none, true, 0, 0⟩ 1990 2 14
      ⟨2026, 10, 12⟩ rfl rfl rfl (by norm_num) (by norm_num) (by norm_num)
      (by norm_num) (by norm_num) (by decide) (by decide),
   C7_roundtrip_amended.2 ⟨1, 1, none, 7, 31, none, true, 0, 0⟩ ⟨2026, 10, 12⟩
      rfl (by norm_num) (by norm_num) (by norm_num) (by decide) (by norm_num)
      (by norm_num)⟩

/-- `strptime` with `%m-%d %Y` on `"2-dd "` plus the appended current
year reduces to constructing the date (February dd of the current year),
so validity is decided by the current year's calendar. -/
theorem strptimeDate_monthDay_feb (dd : Nat) (hd1 : 1 ≤ dd) (hd31 : dd ≤ 31)
    (ty : Nat) (h1 : 1000 ≤ ty) (h2 : ty ≤ 9999) :
    strptimeDate Fmt.monthDay
      ('2' :: '-' :: digitChar (dd / 10) :: digitChar (dd % 10) :: ' ' ::
        natLit ty) = mkDate ty 2 dd := by
  rw [natLit4 ty h1 h2]
  have hmatch := grp_step [[isIn ['1'], isIn ['0', '1', '2']], [isIn ['0'], nz19]]
    [nz19] [] [Dir.lit '-', dirD, Dir.lit ' ', dirY4]
    ('2' :: '-' :: digitChar (dd / 10) :: digitChar (dd % 10) :: ' ' ::
      digitChar (ty / 1000) :: digitChar (ty / 100 % 10) ::
      digitChar (ty / 10 % 10) :: digitChar (ty % 10) :: [])
    ('-' :: digitChar (dd / 10) :: digitChar (dd % 10) :: ' ' ::
      digitChar (ty / 1000) :: digitChar (ty / 100 % 10) ::
      digitChar (ty / 10 % 10) :: digitChar (ty % 10) :: [])
    ['2'] _ _ _
    (by
      intro x hx
      simp only [List.mem_cons, List.not_mem_nil, or_false] at hx
      rcases hx with rfl | rfl
      · simp [matchClasses, show isIn ['1'] '2' = false from by decide]
      · simp [matchClasses, show isIn ['0'] '2' = false from by decide])
    (by simp [matchClasses, show nz19 '2' = true from by decide])
    (lit_step '-' _ _ _ _ _
      (dirD_step dd hd1 hd31 _ _ _ _ _
        (lit_step ' ' _ _ _ _ _
          (dirY4_step (digitChar (ty / 1000)) (digitChar (ty / 100 % 10))
            (digitChar (ty / 10 % 10)) (digitChar (ty % 10))
            (digitChar_isDigit _ (by omega)) (digitChar_isDigit _ (by omega))
            (digitChar_isDigit _ (by omega)) (digitChar_isDigit _ (by omega))
            _ _ _ _ _ (reMatch_nil [])))))
  have hrun : strptimeRun (fmtDirs Fmt.monthDay)
      ('2' :: '-' :: digitChar (dd / 10) :: digitChar (dd % 10) :: ' ' ::
        digitChar (ty / 1000) :: digitChar (ty / 100 % 10) ::
        digitChar (ty / 10 % 10) :: digitChar (ty % 10) :: []) =
      .ok [['2'], [digitChar (dd / 10), digitChar (dd % 10)],
        [digitChar (ty / 1000), digitChar (ty / 100 % 10), digitChar (ty / 10 % 10),
          digitChar (ty % 10)]] := by
    have hmatch2 : reMatch [dirM, Dir.lit '-', dirD, Dir.lit ' ', dirY4]
        ['2', '-', digitChar (dd / 10), digitChar (dd % 10), ' ',
          digitChar (ty / 1000), digitChar (ty / 100 % 10),
          digitChar (ty / 10 % 10), digitChar (ty % 10)] =
        some ([['2'], [digitChar (dd / 10), digitChar (dd % 10)],
          [digitChar (ty / 1000), digitChar (ty / 100 % 10),
            digitChar (ty / 10 % 10), digitChar (ty % 10)]],
          ['2', '-', digitChar (dd / 10), digitChar (dd % 10), ' ',
            digitChar (ty / 1000), digitChar (ty / 100 % 10),
            digitChar (ty / 10 % 10), digitChar (ty % 10)], []) := hmatch
    unfold strptimeRun
    simp only [fmtDirs]
    rw [hmatch2]
    rfl
  have hcaps : capsToYMD Fmt.monthDay
      [['2'], [digitChar (dd / 10), digitChar (dd % 10)],
        [digitChar (ty / 1000), digitChar (ty / 100 % 10), digitChar (ty / 10 % 10),
          digitChar (ty % 10)]] = some (ty, 2, dd) := by
    simp only [capsToYMD, capVal4 ty h1 h2,
      capVal2 (dd / 10) (dd % 10) (by omega) (by omega),
      show capVal ['2'] = 2 from rfl]
    have e2 : 10 * (dd / 10) + dd % 10 = dd := by omega
    rw [e2]
  simp only [strptimeDate, hrun, hcaps]

/-- C4: `parse("2-14")` returns `(None, 2, 14)` for every (four-digit)
current year; `parse("2-29")` succeeds with `(None, 2, 29)` exactly when
the current year is a leap year, and otherwise fails — the year-less
layout is validated by substituting the current year. -/
theorem C4_yearless_validation (today : Date)
    (h1 : 1000 ≤ today.year) (h2 : today.year ≤ 9999) :
    parse_date "2-14" today = .ok (none, 2, 14) ∧
    (isLeapYear today.year = true → parse_date "2-29" today = .ok (none, 2, 29)) ∧
    (isLeapYear today.year = false → parse_date "2-29" today =
      .error (.valueError "day is out of range for month")) := by
  have hfirst14 : firstPatternMatch (stripChars ("2-14".data)) =
      some (['2', '-', '1', '4'], Fmt.monthDay) := by decide
  have hfirst29 : firstPatternMatch (stripChars ("2-29".data)) =
      some (['2', '-', '2', '9'], Fmt.monthDay) := by decide
  have hs14 : strptimeDate Fmt.monthDay
      (['2', '-', '1', '4'] ++ ' ' :: natLit today.year) =
      mkDate today.year 2 14 :=
    strptimeDate_monthDay_feb 14 (by norm_num) (by norm_num) today.year h1 h2
  have hs29 : strptimeDate Fmt.monthDay
      (['2', '-', '2', '9'] ++ ' ' :: natLit today.year) =
      mkDate today.year 2 29 :=
    strptimeDate_monthDay_feb 29 (by norm_num) (by norm_num) today.year h1 h2
  have hfeb : 28 ≤ daysInMonth today.year 2 ∧ daysInMonth today.year 2 ≤ 29 := by
    show 28 ≤ (if isLeapYear today.year then 29 else 28) ∧
      (if isLeapYear today.year then 29 else 28) ≤ 29
    split <;> omega
  refine ⟨?_, ?_, ?_⟩
  · rw [parse_date_of_first _ today _ _ hfirst14]
    have hmk : mkDate today.year 2 14 = .ok ⟨today.year, 2, 14⟩ := by
      unfold mkDate
      rw [if_neg (by simp only [Bool.or_eq_true, decide_eq_true_eq]; omega)]
      rw [if_neg (by decide)]
      rw [if_neg (by simp only [Bool.or_eq_true, decide_eq_true_eq]; omega)]
    exact parseWithFmt_noyear _ Fmt.monthDay today ⟨today.year, 2, 14⟩ rfl
      (hs14.trans hmk)
  · intro hleap
    rw [parse_date_of_first _ today _ _ hfirst29]
    have h29 : daysInMonth today.year 2 = 29 := by
      show (if isLeapYear today.year then 29 else 28) = 29
      rw [hleap]
      rfl
    have hmk : mkDate today.year 2 29 = .ok ⟨today.year, 2, 29⟩ := by
      unfold mkDate
      rw [if_neg (by simp only [Bool.or_eq_true, decide_eq_true_eq]; omega)]
      rw [if_neg (by decide)]
      rw [if_neg (by simp only [Bool.or_eq_true, decide_eq_true_eq]; omega)]
    exact parseWithFmt_noyear _ Fmt.monthDay today ⟨today.year, 2, 29⟩ rfl
      (hs29.trans hmk)
  · intro hleap
    rw [parse_date_of_first _ today _ _ hfirst29]
    have h28 : daysInMonth today.year 2 = 28 := by
      show (if isLeapYear today.year then 29 else 28) = 28
      rw [hleap]
      rfl
    have hmk : mkDate today.year 2 29 =
        .error (.valueError "day is out of range for month") := by
      unfold mkDate
      rw [if_neg (by simp only [Bool.or_eq_true, decide_eq_true_eq]; omega)]
      rw [if_neg (by decide)]
      rw [if_pos (by simp only [Bool.or_eq_true, decide_eq_true_eq]; omega)]
    exact parseWithFmt_noyear_err _ Fmt.monthDay today _ rfl (hs29.trans hmk)

/-- C4 witness: the theorem applied on a non-leap current day (2026) and
a leap current day (2024). -/
theorem C4_yearless_validation_witness :
    parse_date "2-14" ⟨2026, 10, 12⟩ = .ok (none, 2, 14) ∧
    parse_date "2-29" ⟨2026, 10, 12⟩ =
      .error (.valueError "day is out of range for month") ∧
    parse_date "2-29" ⟨2024, 10, 12⟩ = .ok (none, 2, 29) :=
  ⟨(C4_yearless_validation ⟨2026, 10, 12⟩ (by norm_num) (by norm_num)).1,
   (C4_yearless_validation ⟨2026, 10, 12⟩ (by norm_num) (by norm_num)).2.2
     (by decide),
   (C4_yearless_validation ⟨2024, 10, 12⟩ (by norm_num) (by norm_num)).2.1
     (by decide)⟩
